import Mathlib

/-!
# Verification of `xdg` (nicolai86/xdg): XDG base-directory resolution

A shallow embedding of `xdg.go`.

* A Go `string` is modelled by a Lean `String`, a finite sequence of characters.
  The package only compares strings with `""`, concatenates them, and splits
  and joins them at the one-byte separator `":"`; all of these act position by
  position, so reading every byte as one character makes the model cover
  arbitrary byte strings as well.
* The process environment is an explicit argument `env : Env`, a partial map
  from variable names to values (what `os.LookupEnv` exposes).  `os.Getenv`
  returns the value, or `""` when the variable is absent.
* `strings.Split` and `strings.Join` are transcribed from the Go standard
  library (`genSplit`, and the `strings.Builder` loop of `Join`), for the
  one-byte separator the package passes.
* `RuntimeDir` returns the Go pair `(string, error)`; `nil` is `none`.
-/

namespace Xdg

/-! ## Environment -/

/-- The process environment: a partial map from names to values. -/
abbrev Env := String → Option String

/-- Go `os.LookupEnv`: the value and whether the variable is present. -/
def LookupEnv (env : Env) (key : String) : Option String := env key

/-- Go `os.Getenv`: the value of the variable, `""` when it is not present. -/
def Getenv (env : Env) (key : String) : String :=
  match env key with
  | some v => v
  | none => ""

/-- Go `os.Setenv` (for a valid name and value): bind `key` to `value`. -/
def Setenv (env : Env) (key value : String) : Env :=
  fun k => if k = key then some value else env k

/-- Go `os.Unsetenv`: remove `key` from the environment. -/
def Unsetenv (env : Env) (key : String) : Env :=
  fun k => if k = key then none else env k

/-- The environment with no variable set. -/
def emptyEnv : Env := fun _ => none

/-! ## `strings.Split` and `strings.Join` -/

/-- Go `bytealg.CountString`: the number of occurrences of `c` in `s`
(what `strings.Count` computes for a separator of length one). -/
def CountString : List Char → Char → Nat
  | [], _ => 0
  | x :: xs, c => (if x = c then 1 else 0) + CountString xs c

/-- Go `strings.IndexByte`: the index of the first `c` in `s`; `none` stands
for Go's `-1` (what `strings.Index` computes for a separator of length one). -/
def IndexByte : List Char → Char → Option Nat
  | [], _ => none
  | x :: xs, c =>
    if x = c then some 0
    else match IndexByte xs c with
      | some m => some (m + 1)
      | none => none

/-- The loop of Go `genSplit`, `for i < n { ... }`, with `k = n - i` iterations
left: cut `s` at the first separator, store the part before it and continue
after it; when no separator is left (`m < 0`) or the count is used up, the
remainder of `s` is the last element. -/
def genSplitLoop (sep : Char) : Nat → List Char → List (List Char)
  | 0, s => [s]
  | k + 1, s =>
    match IndexByte s sep with
    | none => [s]
    | some m => s.take m :: genSplitLoop sep k (s.drop (m + 1))

/-- Go `genSplit(s, sep, 0, -1)` for a one-byte `sep`: `n` is first
`Count(s, sep) + 1`, then capped at `len(s) + 1`, and the loop runs while
`i < n - 1`. -/
def genSplit (s : List Char) (sep : Char) : List (List Char) :=
  let n := CountString s sep + 1
  let n := if n > s.length + 1 then s.length + 1 else n
  genSplitLoop sep (n - 1) s

/-- Go `strings.Split(s, sep)` for a one-byte separator `sep`. -/
def Split (s : String) (sep : Char) : List String :=
  (genSplit s.data sep).map String.mk

/-- Go `strings.Join(elems, sep)`: `""` for no element, the element itself for
one, and otherwise the first element followed, for every further element, by
`sep` and that element. -/
def Join (elems : List String) (sep : String) : String :=
  match elems with
  | [] => ""
  | [e] => e
  | e :: rest => rest.foldl (fun b s => b ++ sep ++ s) e

/-! ## The package `xdg` -/

def envDataHome : String := "XDG_DATA_HOME"
def envDataDirs : String := "XDG_DATA_DIRS"
def envConfigHome : String := "XDG_CONFIG_HOME"
def envConfigDirs : String := "XDG_CONFIG_DIRS"
def envCacheHome : String := "XDG_CACHE_HOME"
def envRuntimeDir : String := "XDG_RUNTIME_DIR"
def envHome : String := "HOME"

/-- A Go `error` value made by `errors.New`, identified by its message. -/
structure GoError where
  msg : String
  deriving DecidableEq, Repr

/-- The error `errors.New("XDG_RUNTIME_DIR not set")`. -/
def ErrRuntimeDirNotSet : GoError := ⟨"XDG_RUNTIME_DIR not set"⟩

/-- `RuntimeDir` of `xdg.go`: the runtime directory and a `nil` error, or `""`
and `ErrRuntimeDirNotSet`. -/
def RuntimeDir (env : Env) : String × Option GoError :=
  if Getenv env envRuntimeDir ≠ "" then
    (Getenv env envRuntimeDir, none)
  else
    ("", some ErrRuntimeDirNotSet)

/-- `CacheHome` of `xdg.go`. -/
def CacheHome (env : Env) : String :=
  if Getenv env envCacheHome ≠ "" then
    Getenv env envCacheHome
  else
    Getenv env envHome ++ "/.cache"

/-- `DataHome` of `xdg.go`. -/
def DataHome (env : Env) : String :=
  if Getenv env envDataHome ≠ "" then
    Getenv env envDataHome
  else
    Getenv env envHome ++ "/.local/share"

/-- `DataDirs` of `xdg.go`. -/
def DataDirs (env : Env) : List String :=
  if Getenv env envDataDirs ≠ "" then
    Split (Getenv env envDataDirs) ':'
  else
    ["/usr/local/share", "/usr/share"]

/-- `ConfigHome` of `xdg.go`. -/
def ConfigHome (env : Env) : String :=
  if Getenv env envConfigHome ≠ "" then
    Getenv env envConfigHome
  else
    Getenv env envHome ++ "/.config"

/-- `ConfigDirs` of `xdg.go`. -/
def ConfigDirs (env : Env) : List String :=
  if Getenv env envConfigDirs ≠ "" then
    Split (Getenv env envConfigDirs) ':'
  else
    ["/etc/xdg"]

/-! ## Specification-level splitting -/

/-- The segments of `s` between the occurrences of `c`, from left to right:
the text before the first `c`, then the segments of what follows it; a text
without `c` is its own single segment. -/
def segments (c : Char) : List Char → List (List Char)
  | [] => [[]]
  | x :: xs =>
    if x = c then [] :: segments c xs
    else match segments c xs with
      | [] => [[x]]
      | seg :: rest => (x :: seg) :: rest

/-! ## Test environments -/

/-- The environment of the package's tests: the listed variables are set one
after the other with `os.Setenv`. -/
def setAll (env : Env) : List (String × String) → Env
  | [] => env
  | (k, v) :: kvs => setAll (Setenv env k v) kvs

/-! ## Lemmas on splitting and joining -/

theorem segments_ne_nil (c : Char) (s : List Char) : segments c s ≠ [] := by
  cases s with
  | nil => simp [segments]
  | cons x xs =>
    by_cases hx : x = c
    · simp [segments, hx]
    · cases hseg : segments c xs <;> simp [segments, hx, hseg]

theorem genSplitLoop_nil (c : Char) (k : Nat) : genSplitLoop c k [] = [[]] := by
  cases k <;> simp [genSplitLoop, IndexByte]

theorem genSplitLoop_cons_sep (c : Char) (k : Nat) (xs : List Char) :
    genSplitLoop c (k + 1) (c :: xs) = [] :: genSplitLoop c k xs := by
  simp [genSplitLoop, IndexByte]

theorem genSplitLoop_cons_other (c x : Char) (hx : x ≠ c) (k : Nat) (xs : List Char) :
    genSplitLoop c (k + 1) (x :: xs) =
      match genSplitLoop c (k + 1) xs with
      | [] => [[x]]
      | seg :: rest => (x :: seg) :: rest := by
  cases hidx : IndexByte xs c <;> simp [genSplitLoop, IndexByte, hx, hidx]

theorem genSplitLoop_zero_cons_other (c x : Char) (xs : List Char) :
    genSplitLoop c 0 (x :: xs) =
      match genSplitLoop c 0 xs with
      | [] => [[x]]
      | seg :: rest => (x :: seg) :: rest := by
  simp [genSplitLoop]

/-- With at least as many iterations as there are separators, the loop of
`genSplit` produces the segments of the string. -/
theorem genSplitLoop_eq_segments (c : Char) (s : List Char) :
    ∀ k, CountString s c ≤ k → genSplitLoop c k s = segments c s := by
  induction s with
  | nil => intro k _; simp [genSplitLoop_nil, segments]
  | cons x xs ih =>
    intro k hk
    by_cases hx : x = c
    · subst hx
      cases k with
      | zero => simp [CountString] at hk
      | succ k =>
        have hk2 : CountString xs x ≤ k := by
          simp [CountString] at hk; omega
        rw [genSplitLoop_cons_sep, ih k hk2]
        simp [segments]
    · have hk2 : CountString xs c ≤ k := by
        simpa [CountString, hx] using hk
      cases k with
      | zero =>
        rw [genSplitLoop_zero_cons_other, ih 0 hk2]
        simp [segments, hx]
      | succ k =>
        rw [genSplitLoop_cons_other c x hx, ih (k + 1) hk2]
        simp [segments, hx]

theorem CountString_le_length (s : List Char) (c : Char) : CountString s c ≤ s.length := by
  induction s with
  | nil => simp [CountString]
  | cons x xs ih =>
    by_cases hx : x = c <;> simp [CountString, hx] <;> omega

/-- Go `genSplit` computes the segments of its argument. -/
theorem genSplit_eq_segments (s : List Char) (c : Char) : genSplit s c = segments c s := by
  have hle := CountString_le_length s c
  have hn : ¬ (CountString s c + 1 > s.length + 1) := by omega
  simp only [genSplit, hn, if_false]
  exact genSplitLoop_eq_segments c s _ (by omega)

theorem Split_eq_segments (s : String) (c : Char) :
    Split s c = (segments c s.data).map String.mk := by
  simp [Split, genSplit_eq_segments]

theorem foldl_sep_append (sep a : String) (rs : List String) :
    ∀ b : String, rs.foldl (fun b s => b ++ sep ++ s) (a ++ b) =
      a ++ rs.foldl (fun b s => b ++ sep ++ s) b := by
  induction rs with
  | nil => intro b; rfl
  | cons r rs ih =>
    intro b
    simp only [List.foldl_cons]
    rw [← ih (b ++ sep ++ r)]
    simp [String.append_assoc]

/-- Go `Join` on two or more elements: the first element, the separator, and
the join of the others. -/
theorem Join_cons_cons (e r : String) (rs : List String) (sep : String) :
    Join (e :: r :: rs) sep = e ++ sep ++ Join (r :: rs) sep := by
  have hr : Join (r :: rs) sep = rs.foldl (fun b s => b ++ sep ++ s) r := by
    cases rs <;> rfl
  rw [hr]
  show (r :: rs).foldl (fun b s => b ++ sep ++ s) e = _
  simp only [List.foldl_cons]
  exact foldl_sep_append sep (e ++ sep) rs r

theorem mk_cons_append (x : Char) (h : List Char) (t : String) :
    String.mk (x :: h) ++ t = String.mk (x :: (String.mk h ++ t).data) := by
  apply String.ext
  simp [String.data_append]

/-- Joining the segments of `s` at `c` with the separator `c` gives `s` back. -/
theorem Join_segments (c : Char) (s : List Char) :
    Join ((segments c s).map String.mk) (String.mk [c]) = String.mk s := by
  induction s with
  | nil => simp [segments, Join]
  | cons x xs ih =>
    by_cases hx : x = c
    · subst hx
      cases hseg : segments x xs with
      | nil => exact absurd hseg (segments_ne_nil x xs)
      | cons h t =>
        rw [hseg] at ih
        simp only [segments, if_true, hseg, List.map_cons]
        rw [Join_cons_cons]
        simp only [List.map_cons] at ih
        rw [ih]
        apply String.ext
        simp [String.data_append]
    · cases hseg : segments c xs with
      | nil => exact absurd hseg (segments_ne_nil c xs)
      | cons h t =>
        rw [hseg] at ih
        simp only [segments, hx, if_false, hseg]
        cases t with
        | nil =>
          simp only [List.map_cons, List.map_nil, Join] at ih ⊢
          have hxs : h = xs := congrArg String.data ih
          rw [hxs]
        | cons r rs =>
          simp only [List.map_cons] at ih ⊢
          rw [Join_cons_cons] at ih ⊢
          rw [String.append_assoc] at ih ⊢
          rw [mk_cons_append, ih]

/-- Go `Join` undoes Go `Split` at the separator `":"`, for every string. -/
theorem Join_Split (v : String) : Join (Split v ':') ":" = v := by
  rw [Split_eq_segments]
  exact Join_segments ':' v.data

theorem Getenv_of_some (env : Env) (k v : String) (h : LookupEnv env k = some v) :
    Getenv env k = v := by
  simp only [LookupEnv] at h
  simp [Getenv, h]

theorem Getenv_of_none (env : Env) (k : String) (h : LookupEnv env k = none) :
    Getenv env k = "" := by
  simp only [LookupEnv] at h
  simp [Getenv, h]

/-- The value read by `Getenv` is empty exactly when the variable is unset or
set to the empty string. -/
theorem Getenv_eq_empty_iff (env : Env) (k : String) :
    Getenv env k = "" ↔ (LookupEnv env k = none ∨ LookupEnv env k = some "") := by
  simp only [Getenv, LookupEnv]
  cases env k <;> simp

theorem Getenv_Setenv (env : Env) (k v : String) : Getenv (Setenv env k v) k = v := by
  simp [Getenv, Setenv]

theorem Getenv_Unsetenv (env : Env) (k : String) : Getenv (Unsetenv env k) k = "" := by
  simp [Getenv, Unsetenv]

theorem Getenv_Setenv_other (env : Env) (k k2 v : String) (h : k2 ≠ k) :
    Getenv (Setenv env k v) k2 = Getenv env k2 := by
  simp [Getenv, Setenv, h]

theorem Getenv_Unsetenv_other (env : Env) (k k2 : String) (h : k2 ≠ k) :
    Getenv (Unsetenv env k) k2 = Getenv env k2 := by
  simp [Getenv, Unsetenv, h]

/-! ## The claims -/

/-- Claim C1. In every environment in which `XDG_RUNTIME_DIR` is set to a
non-empty string `s`, `RuntimeDir` returns exactly `s` and the error `nil`,
whatever the other variables hold. -/
theorem RuntimeDir_set (env : Env) (s : String) (hs : s ≠ "")
    (hset : LookupEnv env envRuntimeDir = some s) :
    RuntimeDir env = (s, none) := by
  have hget := Getenv_of_some env envRuntimeDir s hset
  simp [RuntimeDir, hget, hs]

theorem RuntimeDir_set_witness :
    "/run/user/1000" ≠ "" ∧
    LookupEnv (setAll emptyEnv [(envHome, "/home/manfred"), (envRuntimeDir, "/run/user/1000")])
      envRuntimeDir = some "/run/user/1000" ∧
    RuntimeDir (setAll emptyEnv [(envHome, "/home/manfred"), (envRuntimeDir, "/run/user/1000")])
      = ("/run/user/1000", none) :=
  ⟨by decide, by decide, RuntimeDir_set _ _ (by decide) (by decide)⟩

/-- Claim C2. In every environment, `RuntimeDir` fails with
`ErrRuntimeDirNotSet` if and only if `XDG_RUNTIME_DIR` is unset or set to the
empty string; in that case the returned string is empty; and
`ErrRuntimeDirNotSet` is the only error `RuntimeDir` ever returns. -/
theorem RuntimeDir_error (env : Env) :
    ((RuntimeDir env).2 = some ErrRuntimeDirNotSet ↔
      (LookupEnv env envRuntimeDir = none ∨ LookupEnv env envRuntimeDir = some "")) ∧
    ((RuntimeDir env).2 ≠ none ↔
      (LookupEnv env envRuntimeDir = none ∨ LookupEnv env envRuntimeDir = some "")) ∧
    ((RuntimeDir env).2 ≠ none → (RuntimeDir env).1 = "") ∧
    (∀ err, (RuntimeDir env).2 = some err → err = ErrRuntimeDirNotSet) := by
  rw [← Getenv_eq_empty_iff]
  by_cases h : Getenv env envRuntimeDir = ""
  · simp [RuntimeDir, h]
  · simp [RuntimeDir, h]

theorem RuntimeDir_error_witness :
    (RuntimeDir emptyEnv).2 = some ErrRuntimeDirNotSet ∧
    (RuntimeDir (Setenv emptyEnv envRuntimeDir "")).2 = some ErrRuntimeDirNotSet ∧
    (RuntimeDir (Setenv emptyEnv envRuntimeDir "")).1 = "" :=
  ⟨(RuntimeDir_error emptyEnv).1.2 (Or.inl (by decide)),
   (RuntimeDir_error (Setenv emptyEnv envRuntimeDir "")).1.2 (Or.inr (by decide)),
   (RuntimeDir_error (Setenv emptyEnv envRuntimeDir "")).2.2.1 (by decide)⟩

/-- Claim C3. In every environment, `CacheHome` returns the value of
`XDG_CACHE_HOME` when that value is non-empty, whatever `HOME` holds, and
otherwise the value of `HOME` followed by `/.cache`; so `XDG_CACHE_HOME=""`
with `HOME=/home/manfred` gives `/home/manfred/.cache`, and
`XDG_CACHE_HOME=/tmp` gives `/tmp`. -/
theorem CacheHome_spec (env : Env) :
    (∀ v, LookupEnv env envCacheHome = some v → v ≠ "" → CacheHome env = v) ∧
    ((LookupEnv env envCacheHome = none ∨ LookupEnv env envCacheHome = some "") →
      CacheHome env = Getenv env envHome ++ "/.cache") ∧
    (LookupEnv env envCacheHome = some "" → LookupEnv env envHome = some "/home/manfred" →
      CacheHome env = "/home/manfred/.cache") ∧
    (LookupEnv env envCacheHome = some "/tmp" → CacheHome env = "/tmp") := by
  refine ⟨?_, ?_, ?_, ?_⟩
  · intro v hv hne
    simp [CacheHome, Getenv_of_some env _ v hv, hne]
  · intro h
    simp [CacheHome, (Getenv_eq_empty_iff env envCacheHome).2 h]
  · intro h hhome
    simp [CacheHome, Getenv_of_some env _ _ h, Getenv_of_some env _ _ hhome]
  · intro h
    simp [CacheHome, Getenv_of_some env _ _ h]

theorem CacheHome_spec_witness :
    CacheHome (setAll emptyEnv [(envCacheHome, ""), ("HOME", "/home/manfred")])
      = "/home/manfred/.cache" ∧
    CacheHome (setAll emptyEnv [(envCacheHome, "/tmp"), ("HOME", "/home/manfred")]) = "/tmp" :=
  ⟨(CacheHome_spec _).2.2.1 (by decide) (by decide), (CacheHome_spec _).2.2.2 (by decide)⟩

/-- Claim C4. In every environment, `ConfigHome` returns the value of
`XDG_CONFIG_HOME` when that value is non-empty, whatever `HOME` holds, and
otherwise the value of `HOME` followed by `/.config`; so `XDG_CONFIG_HOME=""`
with `HOME=/home/manfred` gives `/home/manfred/.config`, and
`XDG_CONFIG_HOME=/home/manfred/cunfig` gives `/home/manfred/cunfig`. -/
theorem ConfigHome_spec (env : Env) :
    (∀ v, LookupEnv env envConfigHome = some v → v ≠ "" → ConfigHome env = v) ∧
    ((LookupEnv env envConfigHome = none ∨ LookupEnv env envConfigHome = some "") →
      ConfigHome env = Getenv env envHome ++ "/.config") ∧
    (LookupEnv env envConfigHome = some "" → LookupEnv env envHome = some "/home/manfred" →
      ConfigHome env = "/home/manfred/.config") ∧
    (LookupEnv env envConfigHome = some "/home/manfred/cunfig" →
      ConfigHome env = "/home/manfred/cunfig") := by
  refine ⟨?_, ?_, ?_, ?_⟩
  · intro v hv hne
    simp [ConfigHome, Getenv_of_some env _ v hv, hne]
  · intro h
    simp [ConfigHome, (Getenv_eq_empty_iff env envConfigHome).2 h]
  · intro h hhome
    simp [ConfigHome, Getenv_of_some env _ _ h, Getenv_of_some env _ _ hhome]
  · intro h
    simp [ConfigHome, Getenv_of_some env _ _ h]

theorem ConfigHome_spec_witness :
    ConfigHome (setAll emptyEnv [(envConfigHome, ""), ("HOME", "/home/manfred")])
      = "/home/manfred/.config" ∧
    ConfigHome (setAll emptyEnv [(envConfigHome, "/home/manfred/cunfig"),
      ("HOME", "/home/manfred")]) = "/home/manfred/cunfig" :=
  ⟨(ConfigHome_spec _).2.2.1 (by decide) (by decide), (ConfigHome_spec _).2.2.2 (by decide)⟩

/-- Claim C5. In every environment, `DataHome` returns the value of
`XDG_DATA_HOME` verbatim when that value is non-empty, whatever `HOME` holds,
and otherwise the value of `HOME` followed by `/.local/share`; so
`XDG_DATA_HOME=""` with `HOME=/home/manfred` gives
`/home/manfred/.local/share`. -/
theorem DataHome_spec (env : Env) :
    (∀ v, LookupEnv env envDataHome = some v → v ≠ "" → DataHome env = v) ∧
    ((LookupEnv env envDataHome = none ∨ LookupEnv env envDataHome = some "") →
      DataHome env = Getenv env envHome ++ "/.local/share") ∧
    (LookupEnv env envDataHome = some "" → LookupEnv env envHome = some "/home/manfred" →
      DataHome env = "/home/manfred/.local/share") := by
  refine ⟨?_, ?_, ?_⟩
  · intro v hv hne
    simp [DataHome, Getenv_of_some env _ v hv, hne]
  · intro h
    simp [DataHome, (Getenv_eq_empty_iff env envDataHome).2 h]
  · intro h hhome
    simp [DataHome, Getenv_of_some env _ _ h, Getenv_of_some env _ _ hhome]

theorem DataHome_spec_witness :
    DataHome (setAll emptyEnv [(envDataHome, ""), ("HOME", "/home/manfred")])
      = "/home/manfred/.local/share" ∧
    DataHome (setAll emptyEnv [(envDataHome, "/srv/data"), ("HOME", "/home/manfred")])
      = "/srv/data" :=
  ⟨(DataHome_spec _).2.2 (by decide) (by decide),
   (DataHome_spec _).1 "/srv/data" (by decide) (by decide)⟩

/-- Claim C6. In every environment, `DataDirs` returns the value of
`XDG_DATA_DIRS` split on `":"`, the segments in their left-to-right order,
when that value is non-empty, and otherwise exactly the two-element list
`["/usr/local/share", "/usr/share"]`; so `XDG_DATA_DIRS=/foo:/bar` gives
`["/foo", "/bar"]`. -/
theorem DataDirs_spec (env : Env) :
    (∀ v, LookupEnv env envDataDirs = some v → v ≠ "" →
      DataDirs env = Split v ':' ∧
      DataDirs env = (segments ':' v.data).map String.mk) ∧
    ((LookupEnv env envDataDirs = none ∨ LookupEnv env envDataDirs = some "") →
      DataDirs env = ["/usr/local/share", "/usr/share"]) ∧
    (LookupEnv env envDataDirs = some "/foo:/bar" → DataDirs env = ["/foo", "/bar"]) := by
  refine ⟨?_, ?_, ?_⟩
  · intro v hv hne
    have hd : DataDirs env = Split v ':' := by
      simp [DataDirs, Getenv_of_some env _ v hv, hne]
    exact ⟨hd, hd.trans (Split_eq_segments v ':')⟩
  · intro h
    simp [DataDirs, (Getenv_eq_empty_iff env envDataDirs).2 h]
  · intro h
    have hd : DataDirs env = Split "/foo:/bar" ':' := by
      simp [DataDirs, Getenv_of_some env _ _ h]
    rw [hd]
    decide

theorem DataDirs_spec_witness :
    DataDirs (Setenv emptyEnv envDataDirs "/foo:/bar") = ["/foo", "/bar"] ∧
    DataDirs (Setenv emptyEnv envDataDirs "") = ["/usr/local/share", "/usr/share"] ∧
    DataDirs emptyEnv = ["/usr/local/share", "/usr/share"] :=
  ⟨(DataDirs_spec _).2.2 (by decide),
   (DataDirs_spec _).2.1 (Or.inr (by decide)),
   (DataDirs_spec _).2.1 (Or.inl (by decide))⟩

/-- Claim C7. In every environment, `ConfigDirs` returns the value of
`XDG_CONFIG_DIRS` split on `":"`, the segments in their left-to-right order,
when that value is non-empty, and otherwise exactly the one-element list
`["/etc/xdg"]`; so `XDG_CONFIG_DIRS=/foo:/bar` gives `["/foo", "/bar"]`. -/
theorem ConfigDirs_spec (env : Env) :
    (∀ v, LookupEnv env envConfigDirs = some v → v ≠ "" →
      ConfigDirs env = Split v ':' ∧
      ConfigDirs env = (segments ':' v.data).map String.mk) ∧
    ((LookupEnv env envConfigDirs = none ∨ LookupEnv env envConfigDirs = some "") →
      ConfigDirs env = ["/etc/xdg"]) ∧
    (LookupEnv env envConfigDirs = some "/foo:/bar" → ConfigDirs env = ["/foo", "/bar"]) := by
  refine ⟨?_, ?_, ?_⟩
  · intro v hv hne
    have hd : ConfigDirs env = Split v ':' := by
      simp [ConfigDirs, Getenv_of_some env _ v hv, hne]
    exact ⟨hd, hd.trans (Split_eq_segments v ':')⟩
  · intro h
    simp [ConfigDirs, (Getenv_eq_empty_iff env envConfigDirs).2 h]
  · intro h
    have hd : ConfigDirs env = Split "/foo:/bar" ':' := by
      simp [ConfigDirs, Getenv_of_some env _ _ h]
    rw [hd]
    decide

theorem ConfigDirs_spec_witness :
    ConfigDirs (Setenv emptyEnv envConfigDirs "/foo:/bar") = ["/foo", "/bar"] ∧
    ConfigDirs (Setenv emptyEnv envConfigDirs "") = ["/etc/xdg"] ∧
    ConfigDirs emptyEnv = ["/etc/xdg"] :=
  ⟨(ConfigDirs_spec _).2.2 (by decide),
   (ConfigDirs_spec _).2.1 (Or.inr (by decide)),
   (ConfigDirs_spec _).2.1 (Or.inl (by decide))⟩

/-- Claim C8. For every non-empty string `v`: when `XDG_CONFIG_DIRS` is set to
`v`, joining the list returned by `ConfigDirs` with `":"` yields exactly `v`,
and when `XDG_DATA_DIRS` is set to `v`, joining the list returned by
`DataDirs` with `":"` yields exactly `v`. -/
theorem Join_Dirs_eq_value (env : Env) (v : String) (hv : v ≠ "") :
    (LookupEnv env envConfigDirs = some v → Join (ConfigDirs env) ":" = v) ∧
    (LookupEnv env envDataDirs = some v → Join (DataDirs env) ":" = v) := by
  constructor
  · intro h
    have hd : ConfigDirs env = Split v ':' := by
      simp [ConfigDirs, Getenv_of_some env _ v h, hv]
    rw [hd, Join_Split]
  · intro h
    have hd : DataDirs env = Split v ':' := by
      simp [DataDirs, Getenv_of_some env _ v h, hv]
    rw [hd, Join_Split]

theorem Join_Dirs_eq_value_witness :
    "/foo:/bar" ≠ "" ∧
    Join (ConfigDirs (Setenv emptyEnv envConfigDirs "/foo:/bar")) ":" = "/foo:/bar" ∧
    Join (DataDirs (Setenv emptyEnv envDataDirs "/foo:/bar")) ":" = "/foo:/bar" :=
  ⟨by decide,
   (Join_Dirs_eq_value (Setenv emptyEnv envConfigDirs "/foo:/bar") "/foo:/bar"
      (by decide)).1 (by decide),
   (Join_Dirs_eq_value (Setenv emptyEnv envDataDirs "/foo:/bar") "/foo:/bar"
      (by decide)).2 (by decide)⟩

/-- Claim C9. In every environment, whether the override is set, empty or
unset, joining the list returned by `ConfigDirs` (or by `DataDirs`) with `":"`
and splitting the joined string on `":"` again reproduces the returned list
exactly. -/
theorem Split_Join_Dirs (env : Env) :
    Split (Join (ConfigDirs env) ":") ':' = ConfigDirs env ∧
    Split (Join (DataDirs env) ":") ':' = DataDirs env := by
  constructor
  · by_cases h : Getenv env envConfigDirs = ""
    · have hd : ConfigDirs env = ["/etc/xdg"] := by simp [ConfigDirs, h]
      rw [hd]
      decide
    · have hd : ConfigDirs env = Split (Getenv env envConfigDirs) ':' := by
        simp [ConfigDirs, h]
      rw [hd, Join_Split]
  · by_cases h : Getenv env envDataDirs = ""
    · have hd : DataDirs env = ["/usr/local/share", "/usr/share"] := by simp [DataDirs, h]
      rw [hd]
      decide
    · have hd : DataDirs env = Split (Getenv env envDataDirs) ':' := by
        simp [DataDirs, h]
      rw [hd, Join_Split]

/-- Claim C10. For every environment `e` and each of the six accessors, the
result in `e` with the override variable of the accessor set to the empty
string equals the result in `e` with that variable removed, the error of
`RuntimeDir` included. -/
theorem empty_override_eq_unset (e : Env) :
    RuntimeDir (Setenv e envRuntimeDir "") = RuntimeDir (Unsetenv e envRuntimeDir) ∧
    CacheHome (Setenv e envCacheHome "") = CacheHome (Unsetenv e envCacheHome) ∧
    DataHome (Setenv e envDataHome "") = DataHome (Unsetenv e envDataHome) ∧
    ConfigHome (Setenv e envConfigHome "") = ConfigHome (Unsetenv e envConfigHome) ∧
    DataDirs (Setenv e envDataDirs "") = DataDirs (Unsetenv e envDataDirs) ∧
    ConfigDirs (Setenv e envConfigDirs "") = ConfigDirs (Unsetenv e envConfigDirs) := by
  have hc : envHome ≠ envCacheHome := by decide
  have hd : envHome ≠ envDataHome := by decide
  have hf : envHome ≠ envConfigHome := by decide
  refine ⟨?_, ?_, ?_, ?_, ?_, ?_⟩
  · simp [RuntimeDir, Getenv_Setenv, Getenv_Unsetenv]
  · simp [CacheHome, Getenv_Setenv, Getenv_Unsetenv, Getenv_Setenv_other _ _ _ _ hc,
      Getenv_Unsetenv_other _ _ _ hc]
  · simp [DataHome, Getenv_Setenv, Getenv_Unsetenv, Getenv_Setenv_other _ _ _ _ hd,
      Getenv_Unsetenv_other _ _ _ hd]
  · simp [ConfigHome, Getenv_Setenv, Getenv_Unsetenv, Getenv_Setenv_other _ _ _ _ hf,
      Getenv_Unsetenv_other _ _ _ hf]
  · simp [DataDirs, Getenv_Setenv, Getenv_Unsetenv]
  · simp [ConfigDirs, Getenv_Setenv, Getenv_Unsetenv]

/-- Claim C11, the code at the input of the test. With `XDG_DATA_DIRS` set to
the empty string, joining the list returned by `DataDirs` with `":"` yields
`/usr/local/share:/usr/share`, no directory carrying a trailing slash; this is
not the string `/usr/local/share/:/usr/share/` that `DataDirsTest` compares
with. -/
theorem DataDirs_default_joined (e : Env) :
    DataDirs (Setenv e envDataDirs "") = ["/usr/local/share", "/usr/share"] ∧
    Join (DataDirs (Setenv e envDataDirs "")) ":" = "/usr/local/share:/usr/share" ∧
    Join (DataDirs (Setenv e envDataDirs "")) ":" ≠ "/usr/local/share/:/usr/share/" := by
  have hd : DataDirs (Setenv e envDataDirs "") = ["/usr/local/share", "/usr/share"] := by
    simp [DataDirs, Getenv_Setenv]
  rw [hd]
  decide

/-- Claim C12, the code at the input of the test. In every environment in
which `XDG_DATA_HOME` is set to `/home/manfred/custom` and `HOME` is set to
`/home/manfred`, `DataHome` returns the override unchanged,
`/home/manfred/custom`; this is not the string `/home/manfred/.custom` that
`DataHomeTests` expects. -/
theorem DataHome_custom (env : Env)
    (hdata : LookupEnv env envDataHome = some "/home/manfred/custom")
    (_hhome : LookupEnv env envHome = some "/home/manfred") :
    DataHome env = "/home/manfred/custom" ∧ DataHome env ≠ "/home/manfred/.custom" := by
  have hd : DataHome env = "/home/manfred/custom" := by
    simp [DataHome, Getenv_of_some env _ _ hdata]
  rw [hd]
  exact ⟨rfl, by decide⟩

theorem DataHome_custom_witness :
    LookupEnv (setAll emptyEnv [(envDataHome, "/home/manfred/custom"), ("HOME", "/home/manfred")])
      envDataHome = some "/home/manfred/custom" ∧
    LookupEnv (setAll emptyEnv [(envDataHome, "/home/manfred/custom"), ("HOME", "/home/manfred")])
      envHome = some "/home/manfred" ∧
    DataHome (setAll emptyEnv [(envDataHome, "/home/manfred/custom"), ("HOME", "/home/manfred")])
      = "/home/manfred/custom" ∧
    DataHome (setAll emptyEnv [(envDataHome, "/home/manfred/custom"), ("HOME", "/home/manfred")])
      ≠ "/home/manfred/.custom" :=
  ⟨by decide, by decide, DataHome_custom _ (by decide) (by decide)⟩

/-- Claim C13. `CacheHome`, `DataHome` and `ConfigHome` are total functions
returning a string and no error; in every environment in which `HOME` is
unset or empty and the override variable of the accessor is unset or empty,
they return exactly `/.cache`, `/.local/share` and `/.config`, none of which
is the empty string. -/
theorem home_accessors_without_home (env : Env)
    (hhome : LookupEnv env envHome = none ∨ LookupEnv env envHome = some "") :
    ((LookupEnv env envCacheHome = none ∨ LookupEnv env envCacheHome = some "") →
      CacheHome env = "/.cache" ∧ CacheHome env ≠ "") ∧
    ((LookupEnv env envDataHome = none ∨ LookupEnv env envDataHome = some "") →
      DataHome env = "/.local/share" ∧ DataHome env ≠ "") ∧
    ((LookupEnv env envConfigHome = none ∨ LookupEnv env envConfigHome = some "") →
      ConfigHome env = "/.config" ∧ ConfigHome env ≠ "") := by
  have hh := (Getenv_eq_empty_iff env envHome).2 hhome
  refine ⟨?_, ?_, ?_⟩
  · intro h
    have hc : CacheHome env = "/.cache" := by
      simp [CacheHome, (Getenv_eq_empty_iff env envCacheHome).2 h, hh]
    rw [hc]
    exact ⟨rfl, by decide⟩
  · intro h
    have hc : DataHome env = "/.local/share" := by
      simp [DataHome, (Getenv_eq_empty_iff env envDataHome).2 h, hh]
    rw [hc]
    exact ⟨rfl, by decide⟩
  · intro h
    have hc : ConfigHome env = "/.config" := by
      simp [ConfigHome, (Getenv_eq_empty_iff env envConfigHome).2 h, hh]
    rw [hc]
    exact ⟨rfl, by decide⟩

theorem home_accessors_without_home_witness :
    CacheHome emptyEnv = "/.cache" ∧
    DataHome (Setenv emptyEnv envDataHome "") = "/.local/share" ∧
    ConfigHome (setAll emptyEnv [(envHome, ""), (envConfigHome, "")]) = "/.config" :=
  ⟨((home_accessors_without_home emptyEnv (Or.inl (by decide))).1 (Or.inl (by decide))).1,
   ((home_accessors_without_home (Setenv emptyEnv envDataHome "")
      (Or.inl (by decide))).2.1 (Or.inr (by decide))).1,
   ((home_accessors_without_home (setAll emptyEnv [(envHome, ""), (envConfigHome, "")])
      (Or.inr (by decide))).2.2 (Or.inr (by decide))).1⟩

/-- Claim C14. Each accessor depends on its own variables only: two
environments that agree on `XDG_DATA_DIRS` give the same `DataDirs` (so the
list is unaffected by `XDG_DATA_HOME` and `HOME`, and `DataHome` is never
merged into it), `ConfigDirs` depends only on `XDG_CONFIG_DIRS`, `RuntimeDir`
only on `XDG_RUNTIME_DIR`, and `CacheHome`, `DataHome`, `ConfigHome` only on
their override variable and `HOME`; in particular the same environment always
gives the same results. -/
theorem accessors_depend_on_own_variables (e1 e2 : Env) :
    (LookupEnv e1 envDataDirs = LookupEnv e2 envDataDirs → DataDirs e1 = DataDirs e2) ∧
    (LookupEnv e1 envConfigDirs = LookupEnv e2 envConfigDirs →
      ConfigDirs e1 = ConfigDirs e2) ∧
    (LookupEnv e1 envRuntimeDir = LookupEnv e2 envRuntimeDir →
      RuntimeDir e1 = RuntimeDir e2) ∧
    (LookupEnv e1 envCacheHome = LookupEnv e2 envCacheHome →
      LookupEnv e1 envHome = LookupEnv e2 envHome → CacheHome e1 = CacheHome e2) ∧
    (LookupEnv e1 envDataHome = LookupEnv e2 envDataHome →
      LookupEnv e1 envHome = LookupEnv e2 envHome → DataHome e1 = DataHome e2) ∧
    (LookupEnv e1 envConfigHome = LookupEnv e2 envConfigHome →
      LookupEnv e1 envHome = LookupEnv e2 envHome → ConfigHome e1 = ConfigHome e2) ∧
    (∀ home dataHome : String,
      DataDirs (Setenv (Setenv e1 envHome home) envDataHome dataHome) = DataDirs e1) ∧
    (e1 = e2 → RuntimeDir e1 = RuntimeDir e2 ∧ CacheHome e1 = CacheHome e2 ∧
      DataHome e1 = DataHome e2 ∧ ConfigHome e1 = ConfigHome e2 ∧
      DataDirs e1 = DataDirs e2 ∧ ConfigDirs e1 = ConfigDirs e2) := by
  refine ⟨?_, ?_, ?_, ?_, ?_, ?_, ?_, ?_⟩
  · intro h
    simp only [LookupEnv] at h
    simp [DataDirs, Getenv, h]
  · intro h
    simp only [LookupEnv] at h
    simp [ConfigDirs, Getenv, h]
  · intro h
    simp only [LookupEnv] at h
    simp [RuntimeDir, Getenv, h]
  · intro h hhome
    simp only [LookupEnv] at h hhome
    simp [CacheHome, Getenv, h, hhome]
  · intro h hhome
    simp only [LookupEnv] at h hhome
    simp [DataHome, Getenv, h, hhome]
  · intro h hhome
    simp only [LookupEnv] at h hhome
    simp [ConfigHome, Getenv, h, hhome]
  · intro home dataHome
    have h1 : envDataDirs ≠ envDataHome := by decide
    have h2 : envDataDirs ≠ envHome := by decide
    simp [DataDirs, Getenv_Setenv_other _ _ _ _ h1, Getenv_Setenv_other _ _ _ _ h2]
  · intro h
    subst h
    exact ⟨rfl, rfl, rfl, rfl, rfl, rfl⟩

theorem accessors_depend_on_own_variables_witness :
    DataDirs (setAll emptyEnv [(envDataDirs, "/foo:/bar"), (envDataHome, "/srv/data"),
        (envHome, "/home/manfred")])
      = DataDirs (setAll emptyEnv [(envDataDirs, "/foo:/bar"), (envHome, "/root")]) ∧
    CacheHome (setAll emptyEnv [(envHome, "/home/manfred"), (envDataDirs, "/foo")])
      = CacheHome (setAll emptyEnv [(envHome, "/home/manfred"), (envRuntimeDir, "/run")]) :=
  ⟨(accessors_depend_on_own_variables _ _).1 (by decide),
   (accessors_depend_on_own_variables _ _).2.2.2.1 (by decide) (by decide)⟩

/-! ## Shape of the split lists -/

theorem CountString_eq_count (s : List Char) (c : Char) : CountString s c = s.count c := by
  induction s with
  | nil => simp [CountString]
  | cons x xs ih =>
    by_cases hx : x = c
    · subst hx
      simp [CountString, ih]
      omega
    · have hbeq : (x == c) = false := by simpa using hx
      simp [CountString, ih, hx, List.count_cons, hbeq]

/-- There is one more segment than there are separators. -/
theorem segments_length (c : Char) (s : List Char) :
    (segments c s).length = CountString s c + 1 := by
  induction s with
  | nil => simp [segments, CountString]
  | cons x xs ih =>
    by_cases hx : x = c
    · simp [segments, CountString, hx, ih]
      omega
    · cases hseg : segments c xs with
      | nil => exact absurd hseg (segments_ne_nil c xs)
      | cons h t =>
        rw [hseg] at ih
        simp [segments, CountString, hx, hseg] at ih ⊢
        exact ih

/-- No segment contains the separator. -/
theorem segments_not_mem (c : Char) (s : List Char) :
    ∀ seg ∈ segments c s, c ∉ seg := by
  induction s with
  | nil => simp [segments]
  | cons x xs ih =>
    by_cases hx : x = c
    · intro seg hseg
      simp only [segments, hx, if_true, List.mem_cons] at hseg
      rcases hseg with h | h
      · simp [h]
      · exact ih seg h
    · cases hs : segments c xs with
      | nil => exact absurd hs (segments_ne_nil c xs)
      | cons h t =>
        rw [hs] at ih
        intro seg hseg
        simp only [segments, hx, if_false, hs, List.mem_cons] at hseg
        rcases hseg with h1 | h1
        · have hh := ih h (by simp)
          rw [h1]
          intro hmem
          rcases List.mem_cons.1 hmem with h2 | h2
          · exact hx h2.symm
          · exact hh h2
        · exact ih seg (by simp [h1])

theorem Split_length (v : String) (c : Char) :
    (Split v c).length = v.data.count c + 1 := by
  rw [Split_eq_segments, List.length_map, segments_length, CountString_eq_count]

theorem Split_not_mem (v : String) (c : Char) : ∀ d ∈ Split v c, c ∉ d.data := by
  intro d hd
  rw [Split_eq_segments] at hd
  rcases List.mem_map.1 hd with ⟨seg, hseg, rfl⟩
  exact segments_not_mem c v.data seg hseg

theorem Split_ne_nil (v : String) (c : Char) : Split v c ≠ [] := by
  intro h
  have hl := Split_length v c
  rw [h] at hl
  simp at hl

theorem append_ne_empty (s t : String) (ht : t ≠ "") : s ++ t ≠ "" := by
  intro h
  have hdata := congrArg String.data h
  simp only [String.data_append] at hdata
  have ht2 : t.data = [] := (List.append_eq_nil.1 hdata).2
  exact ht (String.ext ht2)

/-- Claim C15. For every non-empty value `v` of `XDG_DATA_DIRS` (respectively
`XDG_CONFIG_DIRS`), the list returned by `DataDirs` (respectively
`ConfigDirs`) has exactly the number of `":"` characters of `v` plus one
elements and no element contains a `":"`; empty segments from leading,
trailing or adjacent colons are kept and duplicates are not removed, so
`/foo::/foo:` gives `["/foo", "", "/foo", ""]` and `:` gives `["", ""]`. -/
theorem Dirs_split_shape (env : Env) :
    (∀ v, v ≠ "" → LookupEnv env envDataDirs = some v →
      (DataDirs env).length = v.data.count ':' + 1 ∧ ∀ d ∈ DataDirs env, ':' ∉ d.data) ∧
    (∀ v, v ≠ "" → LookupEnv env envConfigDirs = some v →
      (ConfigDirs env).length = v.data.count ':' + 1 ∧ ∀ d ∈ ConfigDirs env, ':' ∉ d.data) ∧
    (LookupEnv env envDataDirs = some "/foo::/foo:" →
      DataDirs env = ["/foo", "", "/foo", ""]) ∧
    (LookupEnv env envConfigDirs = some "/foo::/foo:" →
      ConfigDirs env = ["/foo", "", "/foo", ""]) ∧
    (LookupEnv env envDataDirs = some ":" → DataDirs env = ["", ""]) ∧
    (LookupEnv env envConfigDirs = some ":" → ConfigDirs env = ["", ""]) := by
  have hdata : ∀ v, v ≠ "" → LookupEnv env envDataDirs = some v →
      DataDirs env = Split v ':' := by
    intro v hv h
    simp [DataDirs, Getenv_of_some env _ v h, hv]
  have hconfig : ∀ v, v ≠ "" → LookupEnv env envConfigDirs = some v →
      ConfigDirs env = Split v ':' := by
    intro v hv h
    simp [ConfigDirs, Getenv_of_some env _ v h, hv]
  refine ⟨?_, ?_, ?_, ?_, ?_, ?_⟩
  · intro v hv h
    rw [hdata v hv h]
    exact ⟨Split_length v ':', Split_not_mem v ':'⟩
  · intro v hv h
    rw [hconfig v hv h]
    exact ⟨Split_length v ':', Split_not_mem v ':'⟩
  · intro h
    rw [hdata _ (by decide) h]
    decide
  · intro h
    rw [hconfig _ (by decide) h]
    decide
  · intro h
    rw [hdata _ (by decide) h]
    decide
  · intro h
    rw [hconfig _ (by decide) h]
    decide

theorem Dirs_split_shape_witness :
    (DataDirs (Setenv emptyEnv envDataDirs "/foo::/foo:")).length = 4 ∧
    DataDirs (Setenv emptyEnv envDataDirs "/foo::/foo:") = ["/foo", "", "/foo", ""] ∧
    ConfigDirs (Setenv emptyEnv envConfigDirs ":") = ["", ""] :=
  ⟨((Dirs_split_shape (Setenv emptyEnv envDataDirs "/foo::/foo:")).1 "/foo::/foo:"
      (by decide) (by decide)).1,
   (Dirs_split_shape (Setenv emptyEnv envDataDirs "/foo::/foo:")).2.2.1 (by decide),
   (Dirs_split_shape (Setenv emptyEnv envConfigDirs ":")).2.2.2.2.2 (by decide)⟩

/-- Claim C16. In every environment, whether the override variable is set,
empty or unset, `DataDirs` and `ConfigDirs` return a list with at least one
element. -/
theorem Dirs_nonempty (env : Env) :
    DataDirs env ≠ [] ∧ ConfigDirs env ≠ [] ∧
    1 ≤ (DataDirs env).length ∧ 1 ≤ (ConfigDirs env).length := by
  have hd : DataDirs env ≠ [] := by
    by_cases h : Getenv env envDataDirs = ""
    · simp [DataDirs, h]
    · simp only [DataDirs, ne_eq, h, not_false_eq_true, if_true]
      exact Split_ne_nil _ _
  have hc : ConfigDirs env ≠ [] := by
    by_cases h : Getenv env envConfigDirs = ""
    · simp [ConfigDirs, h]
    · simp only [ConfigDirs, ne_eq, h, not_false_eq_true, if_true]
      exact Split_ne_nil _ _
  exact ⟨hd, hc, List.length_pos.2 hd, List.length_pos.2 hc⟩

/-- Claim C17. In every environment, `CacheHome`, `DataHome` and `ConfigHome`
return a non-empty string: either the non-empty value of the override
variable, or the value of `HOME` followed by the fixed suffix of the accessor
(`/.cache`, `/.local/share`, `/.config`). -/
theorem home_accessors_nonempty (env : Env) :
    (CacheHome env ≠ "" ∧
      ((∃ v, LookupEnv env envCacheHome = some v ∧ v ≠ "" ∧ CacheHome env = v) ∨
        CacheHome env = Getenv env envHome ++ "/.cache")) ∧
    (DataHome env ≠ "" ∧
      ((∃ v, LookupEnv env envDataHome = some v ∧ v ≠ "" ∧ DataHome env = v) ∨
        DataHome env = Getenv env envHome ++ "/.local/share")) ∧
    (ConfigHome env ≠ "" ∧
      ((∃ v, LookupEnv env envConfigHome = some v ∧ v ≠ "" ∧ ConfigHome env = v) ∨
        ConfigHome env = Getenv env envHome ++ "/.config")) := by
  have hget : ∀ k, Getenv env k ≠ "" →
      ∃ v, LookupEnv env k = some v ∧ v ≠ "" ∧ Getenv env k = v := by
    intro k hk
    simp only [Getenv, LookupEnv] at hk ⊢
    cases hv : env k with
    | none => simp [hv] at hk
    | some v =>
      simp only [hv] at hk
      exact ⟨v, rfl, hk, rfl⟩
  refine ⟨?_, ?_, ?_⟩
  · by_cases h : Getenv env envCacheHome = ""
    · have hc : CacheHome env = Getenv env envHome ++ "/.cache" := by simp [CacheHome, h]
      exact ⟨hc ▸ append_ne_empty _ _ (by decide), Or.inr hc⟩
    · have hc : CacheHome env = Getenv env envCacheHome := by simp [CacheHome, h]
      rw [hc]
      exact ⟨h, Or.inl (hget _ h)⟩
  · by_cases h : Getenv env envDataHome = ""
    · have hc : DataHome env = Getenv env envHome ++ "/.local/share" := by simp [DataHome, h]
      exact ⟨hc ▸ append_ne_empty _ _ (by decide), Or.inr hc⟩
    · have hc : DataHome env = Getenv env envDataHome := by simp [DataHome, h]
      rw [hc]
      exact ⟨h, Or.inl (hget _ h)⟩
  · by_cases h : Getenv env envConfigHome = ""
    · have hc : ConfigHome env = Getenv env envHome ++ "/.config" := by simp [ConfigHome, h]
      exact ⟨hc ▸ append_ne_empty _ _ (by decide), Or.inr hc⟩
    · have hc : ConfigHome env = Getenv env envConfigHome := by simp [ConfigHome, h]
      rw [hc]
      exact ⟨h, Or.inl (hget _ h)⟩

end Xdg
